import Mathlib

/-!
# Verification of the Dual-Finance airdrop SDK transaction builders

A shallow embedding of the `@dual-finance/airdrop` SDK (`src/airdrop.ts` and its
verifier IDLs) together with proofs of the specified properties: program-derived
address formulas, the Merkle balance-tree round trip, the claim wire formats,
governance-proposal selection, and the configure-transaction layouts.

External collaborators (the ed25519 PDA hash inside
`PublicKey.findProgramAddressSync`, RPC account reads, `crypto.randomBytes`)
are modelled as explicit function parameters; the keccak-256 hash from the
`js-sha3` dependency is implemented concretely so that every definition is
executable.
-/

namespace AirdropSdk

/-- Byte strings are lists of naturals; each byte stays below 256 by construction. -/
abbrev Bytes := List Nat

/-- Little-endian 8-byte encoding of a natural number, as
`Buffer.writeBigUInt64LE` lays out values below `2 ^ 64`. -/
def u64le (n : Nat) : Bytes :=
  (List.range 8).map (fun i => n / 256 ^ i % 256)

/-- Big-endian encoding of a natural number into `k` bytes. -/
def beBytes (k n : Nat) : Bytes :=
  (List.range k).map (fun i => n / 256 ^ (k - 1 - i) % 256)

/-- UTF-8 encoding of one unicode code point. -/
def utf8Char (n : Nat) : Bytes :=
  if n < 0x80 then [n]
  else if n < 0x800 then [0xc0 + n / 64, 0x80 + n % 64]
  else if n < 0x10000 then [0xe0 + n / 4096, 0x80 + n / 64 % 64, 0x80 + n % 64]
  else [0xf0 + n / 262144, 0x80 + n / 4096 % 64, 0x80 + n / 64 % 64, 0x80 + n % 64]

/-- UTF-8 bytes of a string, as `Buffer.from(string)` and
`utils.bytes.utf8.encode` produce. -/
def utf8Bytes (s : String) : Bytes :=
  s.data.foldr (fun c acc => utf8Char c.toNat ++ acc) []

/-- Value of one base-58 alphabet character. -/
def b58Value (c : Char) : Nat :=
  "123456789ABCDEFGHJKLMNPQRSTUVWXYZabcdefghijkmnopqrstuvwxyz".data.findIdx
    (fun d => d == c)

/-- The 32 raw bytes of a base58-encoded public key, as `new PublicKey(string)`
decodes it. -/
def publicKeyBytes (s : String) : Bytes :=
  beBytes 32 (s.data.foldl (fun acc c => acc * 58 + b58Value c) 0)

/-! ## keccak-256 (the `js-sha3` dependency's `keccak_256`) -/

/-- All 64 bits set. -/
def mask64 : Nat := 2 ^ 64 - 1

/-- 64-bit rotate left. -/
def rol64 (x n : Nat) : Nat :=
  ((x <<< n) ||| (x >>> (64 - n))) &&& mask64

/-- Keccak round constants (ι step), in decimal. -/
def keccakRC : List Nat :=
  [1, 32898, 9223372036854808714, 9223372039002292224,
   32907, 2147483649, 9223372039002292353, 9223372036854808585,
   138, 136, 2147516425, 2147483658,
   2147516555, 9223372036854775947, 9223372036854808713, 9223372036854808579,
   9223372036854808578, 9223372036854775936, 32778, 9223372039002259466,
   9223372039002292353, 9223372036854808704, 2147483649, 9223372039002292232]

/-- For every destination lane `j` of the combined ρ and π steps, the source
lane `(y, (2x+3y) mod 5) ⁻¹ (j)` paired with that source lane's rotation
offset. -/
def keccakSrcRot : List (Nat × Nat) :=
  [(0, 0), (6, 44), (12, 43), (18, 21), (24, 14),
   (3, 28), (9, 20), (10, 3), (16, 45), (22, 61),
   (1, 1), (7, 6), (13, 25), (19, 8), (20, 18),
   (4, 27), (5, 36), (11, 10), (17, 15), (23, 56),
   (2, 62), (8, 55), (14, 39), (15, 41), (21, 2)]

/-- One Keccak-f[1600] round (θ, ρ, π, χ, ι) on a 25-lane state. -/
def keccakRound (st : List Nat) (rc : Nat) : List Nat :=
  let c := (List.range 5).map (fun x =>
    st.getD x 0 ^^^ st.getD (x + 5) 0 ^^^ st.getD (x + 10) 0 ^^^
      st.getD (x + 15) 0 ^^^ st.getD (x + 20) 0)
  let d := (List.range 5).map (fun x =>
    c.getD ((x + 4) % 5) 0 ^^^ rol64 (c.getD ((x + 1) % 5) 0) 1)
  let a := (List.range 25).map (fun i => st.getD i 0 ^^^ d.getD (i % 5) 0)
  let b := (List.range 25).map (fun j =>
    let sr := keccakSrcRot.getD j (0, 0)
    rol64 (a.getD sr.1 0) sr.2)
  let e := (List.range 25).map (fun j =>
    b.getD j 0 ^^^
      ((b.getD (j / 5 * 5 + (j + 1) % 5) 0 ^^^ mask64) &&&
        b.getD (j / 5 * 5 + (j + 2) % 5) 0))
  e.set 0 (e.getD 0 0 ^^^ rc)

/-- The full Keccak-f[1600] permutation: 24 rounds. -/
def keccakF (st : List Nat) : List Nat :=
  keccakRC.foldl keccakRound st

/-- Keccak (pre-NIST) multi-rate padding for rate 136: append `0x01`, zeros,
and a final `0x80` (a single `0x81` when one byte of room is left). -/
def keccakPad (msg : Bytes) : Bytes :=
  let padLen := 136 - msg.length % 136
  if padLen = 1 then msg ++ [0x81]
  else msg ++ [0x01] ++ List.replicate (padLen - 2) 0 ++ [0x80]

/-- A little-endian byte list read as one 64-bit lane. -/
def laneOfBytes (b : Bytes) : Nat :=
  b.foldr (fun byte acc => byte + 256 * acc) 0

/-- Split a byte list into chunks of `r` bytes; the fuel bounds the number of
chunks and is instantiated with the list length. -/
def chunksFuel (r : Nat) : Nat → Bytes → List Bytes
  | 0, _ => []
  | fuel + 1, l =>
    if l.length = 0 ∨ r = 0 then []
    else l.take r :: chunksFuel r fuel (l.drop r)

/-- Split a byte list into chunks of `r` bytes. -/
def chunks (r : Nat) (l : Bytes) : List Bytes :=
  chunksFuel r l.length l

/-- Absorb one 136-byte block: xor its 17 lanes into the state and permute. -/
def absorbBlock (st : List Nat) (block : Bytes) : List Nat :=
  let lanes := (List.range 17).map (fun i => laneOfBytes ((block.drop (8 * i)).take 8))
  keccakF ((List.range 25).map (fun i => st.getD i 0 ^^^ lanes.getD i 0))

/-- keccak-256 of a byte string: absorb the padded message into an
all-zero state and squeeze the first four lanes (32 bytes). -/
def keccak256 (msg : Bytes) : Bytes :=
  let st := (chunks 136 (keccakPad msg)).foldl absorbBlock (List.replicate 25 0)
  ((List.range 4).map (fun i => u64le (st.getD i 0))).flatten

theorem u64le_length (n : Nat) : (u64le n).length = 8 := by
  simp [u64le]

theorem keccak256_length (m : Bytes) : (keccak256 m).length = 32 := by
  simp only [keccak256, List.length_flatten, List.map_map, Function.comp_def, u64le_length]
  rfl

/-! ## BalanceTree

The SDK imports `BalanceTree` from `src/utils/balance_tree`, a file the
repository does not ship; the definitions below are modelled from the spec
(§4.1): keccak-256 leaf and node hashes with a leaf-vs-node domain tag, a
fixed leaf order given by the caller-supplied list, an odd node promoted
unchanged to the next level, proofs listing the sibling hash at each level
from leaf to root, and verification folding the proof over the leaf hash with
the pair hashed in sorted order. -/

/-- One entry of `amountsByRecipient`: a recipient token account and the
amount it may claim (`{account: PublicKey, amount: BN}` in the SDK). -/
structure Entry where
  account : Bytes
  amount : Nat
  deriving DecidableEq, Repr, Inhabited

/-- Lexicographic byte-wise comparison, as `Buffer.compare(a, b) <= 0`. -/
def byteLe : Bytes → Bytes → Bool
  | [], _ => true
  | _ :: _, [] => false
  | a :: as, b :: bs => if a < b then true else if b < a then false else byteLe as bs

/-- Modelled from the spec: the leaf hash of `(index, account, amount)` is the
domain-tagged keccak-256 of `index` as a little-endian u64, the 32 account
bytes, and `amount` as a little-endian u64. -/
def leafHash (index : Nat) (account : Bytes) (amount : Nat) : Bytes :=
  keccak256 (0x00 :: (u64le index ++ account ++ u64le amount))

/-- Modelled from the spec: an interior node is the domain-tagged keccak-256
of its two children concatenated in sorted byte order. -/
def nodeHash (a b : Bytes) : Bytes :=
  keccak256 (0x01 :: (if byteLe a b then a ++ b else b ++ a))

/-- One level of tree construction: hash adjacent pairs, promote an unmatched
last node unchanged. -/
def hashLevel : List Bytes → List Bytes
  | [] => []
  | [x] => [x]
  | x :: y :: rest => nodeHash x y :: hashLevel rest

theorem hashLevel_length (l : List Bytes) : (hashLevel l).length = (l.length + 1) / 2 := by
  induction l using hashLevel.induct with
  | case1 => simp [hashLevel]
  | case2 => simp [hashLevel]
  | case3 x y rest ih => simp [hashLevel, ih]; omega

/-- The Merkle root after at most `fuel` rounds of pairing; the fuel bounds
the number of levels and is instantiated with the leaf count. -/
def rootFromFuel : Nat → List Bytes → Bytes
  | 0, l => l.headD (List.replicate 32 0)
  | fuel + 1, l =>
    if l.length ≤ 1 then l.headD (List.replicate 32 0)
    else rootFromFuel fuel (hashLevel l)

/-- The Merkle root: repeat `hashLevel` until one node remains. -/
def rootFrom (l : List Bytes) : Bytes :=
  rootFromFuel l.length l

/-- Sibling hashes accompanying leaf `i` on one level: the partner of the
pair containing `i`, absent when `i` is an unmatched last node. -/
def siblingOf (l : List Bytes) (i : Nat) : List Bytes :=
  if i % 2 = 0 then
    if i + 1 < l.length then [l.getD (i + 1) []] else []
  else [l.getD (i - 1) []]

/-- The Merkle proof for leaf `i` collected over at most `fuel` levels. -/
def proofFromFuel : Nat → List Bytes → Nat → List Bytes
  | 0, _, _ => []
  | fuel + 1, l, i =>
    if l.length ≤ 1 then []
    else siblingOf l i ++ proofFromFuel fuel (hashLevel l) (i / 2)

/-- The Merkle proof for leaf `i`: sibling hashes from the leaf level up. -/
def proofFrom (l : List Bytes) (i : Nat) : List Bytes :=
  proofFromFuel l.length l i

/-- The leaf hashes of a recipient list, in list order with positional indices
(`BalanceTree` hashes `(i, account_i, amount_i)` for each entry). -/
def leavesOf (rs : List Entry) : List Bytes :=
  rs.enum.map (fun p => leafHash p.1 p.2.account p.2.amount)

/-- `BalanceTree.getRoot()` for the given recipient list. -/
def balanceTreeRoot (rs : List Entry) : Bytes :=
  rootFrom (leavesOf rs)

/-- `BalanceTree.getProof(i, account_i, amount_i)` for the given recipient list. -/
def balanceTreeProof (rs : List Entry) (i : Nat) : List Bytes :=
  proofFrom (leavesOf rs) i

/-- Modelled from the spec: on-chain verification folds the proof over the
leaf hash, hashing each step's pair in the same sorted order as construction. -/
def verifyProof (proof : List Bytes) (leaf : Bytes) : Bytes :=
  proof.foldl nodeHash leaf

theorem byteLe_total (a b : Bytes) : byteLe a b = true ∨ byteLe b a = true := by
  induction a generalizing b with
  | nil => left; rfl
  | cons x xs ih =>
    cases b with
    | nil => right; rfl
    | cons y ys =>
      by_cases hxy : x < y
      · left; simp [byteLe, hxy]
      · by_cases hyx : y < x
        · right; simp [byteLe, hyx, Nat.not_lt_of_lt hyx]
        · have hxy' : x = y := Nat.le_antisymm (Nat.not_lt.mp hyx) (Nat.not_lt.mp hxy)
          subst hxy'
          rcases ih ys with h | h
          · left; simpa [byteLe] using h
          · right; simpa [byteLe] using h

theorem byteLe_antisymm (a b : Bytes) (hab : byteLe a b = true) (hba : byteLe b a = true) :
    a = b := by
  induction a generalizing b with
  | nil =>
    cases b with
    | nil => rfl
    | cons y ys => simp [byteLe] at hba
  | cons x xs ih =>
    cases b with
    | nil => simp [byteLe] at hab
    | cons y ys =>
      by_cases hxy : x < y
      · simp [byteLe, hxy, Nat.not_lt_of_lt hxy] at hba
      · by_cases hyx : y < x
        · simp [byteLe, hyx, Nat.not_lt_of_lt hyx] at hab
        · have hxy' : x = y := Nat.le_antisymm (Nat.not_lt.mp hyx) (Nat.not_lt.mp hxy)
          subst hxy'
          simp only [byteLe, lt_irrefl, if_false] at hab hba
          rw [ih ys hab hba]

theorem nodeHash_comm (a b : Bytes) : nodeHash a b = nodeHash b a := by
  unfold nodeHash
  rcases byteLe_total a b with h | h
  · by_cases h' : byteLe b a = true
    · rw [byteLe_antisymm a b h h']
    · simp [h, h']
  · by_cases h' : byteLe a b = true
    · rw [byteLe_antisymm a b h' h]
    · simp [h, h']

theorem hashLevel_getD (l : List Bytes) (j : Nat) :
    (hashLevel l).getD j [] =
      if 2 * j + 1 < l.length then nodeHash (l.getD (2 * j) []) (l.getD (2 * j + 1) [])
      else l.getD (2 * j) [] := by
  induction l using hashLevel.induct generalizing j with
  | case1 => simp [hashLevel]
  | case2 x =>
    cases j with
    | zero => simp [hashLevel]
    | succ k =>
      have hl : hashLevel [x] = [x] := rfl
      have e1 : ([x] : List Bytes).getD (k + 1) [] = [] :=
        List.getD_eq_default _ _ (by simp only [List.length_singleton]; omega)
      have e2 : ([x] : List Bytes).getD (2 * (k + 1)) [] = [] :=
        List.getD_eq_default _ _ (by simp only [List.length_singleton]; omega)
      have e3 : ¬ (2 * (k + 1) + 1 < ([x] : List Bytes).length) := by
        simp only [List.length_singleton]; omega
      rw [hl, if_neg e3, e1, e2]
  | case3 x y rest ih =>
    cases j with
    | zero => simp [hashLevel]
    | succ k =>
      have h2 : 2 * (k + 1) = 2 * k + 1 + 1 := by ring
      rw [h2]
      simp only [hashLevel, List.getD_cons_succ, List.length_cons, ih k]
      by_cases hc : 2 * k + 1 < rest.length
      · rw [if_pos hc, if_pos (by omega)]
      · rw [if_neg hc, if_neg (by omega)]

theorem foldl_siblingOf (l : List Bytes) (i : Nat) (hi : i < l.length) :
    List.foldl nodeHash (l.getD i []) (siblingOf l i) = (hashLevel l).getD (i / 2) [] := by
  rw [hashLevel_getD]
  rcases Nat.even_or_odd i with ⟨k, hk⟩ | ⟨k, hk⟩
  · subst hk
    have hmod : (k + k) % 2 = 0 := by omega
    have hd1 : 2 * ((k + k) / 2) = k + k := by omega
    rw [hd1]
    by_cases hc : k + k + 1 < l.length
    · rw [if_pos hc]
      simp [siblingOf, hmod, hc]
    · rw [if_neg hc]
      simp [siblingOf, hmod, hc]
  · subst hk
    have hmod : (2 * k + 1) % 2 = 1 := by omega
    have hd1 : 2 * ((2 * k + 1) / 2) = 2 * k := by omega
    rw [hd1, if_pos (by omega)]
    have hsub : 2 * k + 1 - 1 = 2 * k := by omega
    simp only [siblingOf, hmod, one_ne_zero, if_false, hsub, List.foldl_cons, List.foldl_nil]
    rw [nodeHash_comm]

theorem verify_proofFromFuel (fuel : Nat) :
    ∀ (l : List Bytes) (i : Nat), l.length ≤ fuel + 1 → i < l.length →
      verifyProof (proofFromFuel fuel l i) (l.getD i []) = rootFromFuel fuel l := by
  induction fuel with
  | zero =>
    intro l i hf hi
    cases l with
    | nil => simp at hi
    | cons x xs =>
      have hx : xs = [] := by
        cases xs with
        | nil => rfl
        | cons y ys => simp only [List.length_cons] at hf; omega
      subst hx
      have hi0 : i = 0 := by simp only [List.length_singleton] at hi; omega
      subst hi0
      simp [proofFromFuel, rootFromFuel, verifyProof]
  | succ fuel ih =>
    intro l i hf hi
    by_cases h1 : l.length ≤ 1
    · cases l with
      | nil => simp at hi
      | cons x xs =>
        have hx : xs = [] := by
          cases xs with
          | nil => rfl
          | cons y ys => simp only [List.length_cons] at h1; omega
        subst hx
        have hi0 : i = 0 := by simp only [List.length_singleton] at hi; omega
        subst hi0
        simp [proofFromFuel, rootFromFuel, verifyProof]
    · have hf2 : (hashLevel l).length ≤ fuel + 1 := by rw [hashLevel_length]; omega
      have hi2 : i / 2 < (hashLevel l).length := by rw [hashLevel_length]; omega
      have hrec := ih (hashLevel l) (i / 2) hf2 hi2
      simp only [proofFromFuel, rootFromFuel, if_neg h1, verifyProof,
        List.foldl_append] at hrec ⊢
      rw [foldl_siblingOf l i hi, hrec]

theorem verify_proofFrom (l : List Bytes) (i : Nat) (hi : i < l.length) :
    verifyProof (proofFrom l i) (l.getD i []) = rootFrom l :=
  verify_proofFromFuel l.length l i (by omega) hi

/-- The number of leaves equals the number of recipients. -/
theorem leavesOf_length (rs : List Entry) : (leavesOf rs).length = rs.length := by
  simp [leavesOf]

theorem leavesOf_getD (rs : List Entry) (i : Nat) (hi : i < rs.length) :
    (leavesOf rs).getD i [] =
      leafHash i (rs.getD i default).account (rs.getD i default).amount := by
  have hlt : i < (leavesOf rs).length := by rw [leavesOf_length]; exact hi
  rw [List.getD_eq_getElem _ _ hlt, List.getD_eq_getElem _ _ hi]
  simp [leavesOf]

/-! ## Program identities and instruction model

Constants from `src/airdrop.ts` (the current SDK revision) plus the well-known
token, system, rent, associated-token and governance program addresses the
builders reference through their libraries. -/

def AIRDROP_PK : Bytes := publicKeyBytes ("2fJcpdR6qzqDP7fBqvoJQ5PGYdaRFBNyUKZkZf5t12mr")

def BASIC_VERIFIER_PK : Bytes := publicKeyBytes ("FEdxZUg4BtWvMy7gy7pXEoj1isqBRYmbYdpyZfq5QZYr")

def PASSWORD_VERIFIER_PK : Bytes := publicKeyBytes ("EmsREpwoUtHnmg8aSCqmTFyfp71vnnFCdZozohcrZPeL")

def MERKLE_VERIFIER_PK : Bytes := publicKeyBytes ("8tBcmZAMNm11DuGAS2r6PqSA3CKt72amoz8bVj14xRiT")

def GOVERNANCE_VERIFIER_PK : Bytes := publicKeyBytes ("ATCsJvzSbHaJj3a9uKTRHSoD8ZmWPfeC3sYxzcJJHTM5")

def ORCA_VERIFIER_PK : Bytes := publicKeyBytes ("9X1uDdEsKpc7s1WdZzmfzLG5nhnf2KuE5WpaDaGjGyiG")

def TOKEN_PROGRAM_ID : Bytes := publicKeyBytes ("TokenkegQfeZyiNwAJbNbGKPFXCWuBvf9Ss623VQ5DA")

def SYSTEM_PROGRAM_ID : Bytes := publicKeyBytes ("11111111111111111111111111111111")

def RENT_SYSVAR_ID : Bytes := publicKeyBytes ("SysvarRent111111111111111111111111111111111")

def ATA_PROGRAM_ID : Bytes := publicKeyBytes ("ATokenGPvbdGVxr1b2hvZbsiqW5xWH25efTNsLJA8knL")

/-- `GOVERNANCE_PROGRAM_ID` from `src/utils/governance.ts`. -/
def GOVERNANCE_PROGRAM_ID : Bytes := publicKeyBytes ("GovER5Lthms3bLBqWub97yVrMmEogzX7xNjdXpPPCVZw")

/-- `GOVERNANCE_PROGRAM_SEED` from `src/utils/governance.ts`. -/
def GOVERNANCE_PROGRAM_SEED : String := "governance"

/-- One instruction argument, tagged with its anchor wire type. -/
inductive Arg where
  | bytes (b : Bytes)
  | u64 (n : Nat)
  | i64 (i : Int)
  | u8 (n : Nat)
  deriving DecidableEq, Repr, Inhabited

/-- A built instruction: target program, method name, ordered arguments and
ordered named accounts. -/
structure Instruction where
  programId : Bytes
  method : String
  args : List Arg
  accounts : List (String × Bytes)
  deriving DecidableEq, Repr, Inhabited

/-- `toBytes32Array` from `src/utils/utils.ts`: copy the input right-aligned
into a zeroed 32-byte buffer. -/
def toBytes32Array (b : Bytes) : Bytes :=
  List.replicate (32 - b.length) 0 ++ b

/-- `createTransferInstruction(source, destination, owner, amount)` from
`@solana/spl-token`. -/
def createTransferInstruction (source destination owner : Bytes) (amount : Nat) : Instruction :=
  { programId := TOKEN_PROGRAM_ID, method := "transfer", args := [Arg.u64 amount],
    accounts := [("source", source), ("destination", destination), ("owner", owner)] }

/-- `createAssociatedTokenAccountInstruction(payer, ata, owner, mint)` from
`@solana/spl-token`. -/
def createAssociatedTokenAccountInstruction (payer ata owner mint : Bytes) : Instruction :=
  { programId := ATA_PROGRAM_ID, method := "createAssociatedTokenAccount", args := [],
    accounts := [("payer", payer), ("associatedToken", ata), ("owner", owner), ("mint", mint)] }

/-- The context returned by every configure builder. -/
structure AirdropConfigureContext where
  transaction : List Instruction
  airdropState : Bytes
  verifierState : Bytes
  deriving DecidableEq, Repr, Inhabited

/-- The `VerifierState` account of the governance verifier
(`src/governance_verifier.json`), as the claim builder fetches it. -/
structure GovernanceVerifierState where
  governance : Bytes
  eligibilityStart : Int
  eligibilityEnd : Int
  amountPerVoter : Nat
  airdropState : Bytes
  deriving DecidableEq, Repr, Inhabited

/-- A raw account returned by the `getProgramAccounts` proposal scan. -/
structure ProposalAccount where
  pubkey : Bytes
  data : Bytes
  deriving DecidableEq, Repr, Inhabited

/-- `GovernanceAccountType.ProposalV2` from `src/utils/governance.ts`: the
account-type byte the proposal scan filters on. -/
def PROPOSAL_V2_ACCOUNT_TYPE : Nat := 14

/-- The `getProgramAccounts` filters used by the governance claim builder:
the account-type byte at offset 0, `pubkeyFilter(1, governance)` and
`pubkeyFilter(33, communityMint)`. -/
def proposalFilterMatches (governance communityMint : Bytes) (a : ProposalAccount) : Bool :=
  a.data.getD 0 256 == PROPOSAL_V2_ACCOUNT_TYPE &&
    ((a.data.drop 1).take 32 == governance) &&
    ((a.data.drop 33).take 32 == communityMint)

/-! ## Transaction builders

Each definition embeds the method of the `Airdrop` class with the same name.
The SDK's external effects become parameters: `findProgramAddress` stands for
`web3.PublicKey.findProgramAddressSync` (seed list, program id),
`randomBytes` for `crypto.randomBytes`, `mint` and the fetched state objects
for RPC account reads, `recipientAtaExists` for the
`connection.getAccountInfo(recipientTokenAccount)` probe, `votingAtOf` for
the borsh `Proposal` deserialization of a proposal account's data, and
`accountExists` for the vote-record existence probe. -/

section Builders

variable (findProgramAddress : List Bytes → Bytes → Bytes)
variable (randomBytes : Nat → Bytes)

/-- `Airdrop.getVaultAddress`. -/
def getVaultAddress (state : Bytes) : Bytes :=
  findProgramAddress [utf8Bytes ("Vault"), state] AIRDROP_PK

/-- `getAssociatedTokenAddress(mint, owner)` from `@solana/spl-token`. -/
def getAssociatedTokenAddress (mint owner : Bytes) : Bytes :=
  findProgramAddress [owner, TOKEN_PROGRAM_ID, mint] ATA_PROGRAM_ID

/-- `getVoteRecordAddress` from `src/utils/governance.ts`. -/
def getVoteRecordAddress (proposal tokenOwnerRecord : Bytes) : Bytes :=
  findProgramAddress [utf8Bytes GOVERNANCE_PROGRAM_SEED, proposal, tokenOwnerRecord]
    GOVERNANCE_PROGRAM_ID

/-- `getTokenOwnerRecordAddress` from `src/utils/governance.ts`. -/
def getTokenOwnerRecordAddress (realm governingTokenMint governingTokenOwner : Bytes) : Bytes :=
  findProgramAddress
    [utf8Bytes GOVERNANCE_PROGRAM_SEED, realm, governingTokenMint, governingTokenOwner]
    GOVERNANCE_PROGRAM_ID

/-- `Airdrop.createConfigBasicTransaction`. -/
def createConfigBasicTransaction (source : Bytes) (amount : Nat) (authority : Bytes)
    (mint : Bytes) : AirdropConfigureContext :=
  let airdropSeed := randomBytes 32
  let airdropState := findProgramAddress [airdropSeed] AIRDROP_PK
  let basicVault := getVaultAddress findProgramAddress airdropState
  let verifierSignature := findProgramAddress [airdropState] BASIC_VERIFIER_PK
  let basicConfigureIx : Instruction :=
    { programId := AIRDROP_PK, method := "configure", args := [Arg.bytes airdropSeed],
      accounts := [("payer", authority), ("closeAuthority", authority),
        ("verifierSignature", verifierSignature), ("vault", basicVault), ("mint", mint),
        ("state", airdropState), ("tokenProgram", TOKEN_PROGRAM_ID),
        ("systemProgram", SYSTEM_PROGRAM_ID), ("rent", RENT_SYSVAR_ID)] }
  let transferIx := createTransferInstruction source basicVault authority amount
  { transaction := [basicConfigureIx, transferIx],
    airdropState := airdropState, verifierState := airdropState }

/-- `Airdrop.createConfigPasswordTransaction`. -/
def createConfigPasswordTransaction (source : Bytes) (amount : Nat) (authority : Bytes)
    (password : String) (mint : Bytes) : AirdropConfigureContext :=
  let airdropSeed := randomBytes 32
  let verifierSeed := randomBytes 32
  let passwordAirdropState := findProgramAddress [airdropSeed] AIRDROP_PK
  let passwordVerifierState := findProgramAddress [verifierSeed] PASSWORD_VERIFIER_PK
  let verifierSignature := findProgramAddress [passwordAirdropState] PASSWORD_VERIFIER_PK
  let passwordVault := getVaultAddress findProgramAddress passwordAirdropState
  let passwordConfigureIx : Instruction :=
    { programId := AIRDROP_PK, method := "configure", args := [Arg.bytes airdropSeed],
      accounts := [("payer", authority), ("closeAuthority", authority),
        ("state", passwordAirdropState), ("vault", passwordVault), ("mint", mint),
        ("verifierSignature", verifierSignature), ("tokenProgram", TOKEN_PROGRAM_ID),
        ("systemProgram", SYSTEM_PROGRAM_ID), ("rent", RENT_SYSVAR_ID)] }
  let passwordInitIx : Instruction :=
    { programId := PASSWORD_VERIFIER_PK, method := "init",
      args := [Arg.bytes verifierSeed, Arg.bytes (keccak256 (utf8Bytes password))],
      accounts := [("authority", authority), ("verifierState", passwordVerifierState),
        ("airdropState", passwordAirdropState), ("systemProgram", SYSTEM_PROGRAM_ID),
        ("rent", RENT_SYSVAR_ID)] }
  let transferIx := createTransferInstruction source passwordVault authority amount
  { transaction := [passwordConfigureIx, passwordInitIx, transferIx],
    airdropState := passwordAirdropState, verifierState := passwordVerifierState }

/-- `Airdrop.createConfigMerkleTransaction`. -/
def createConfigMerkleTransaction (source authority : Bytes) (totalAmount : Nat)
    (merkleRoot : Option Bytes) (amountsByRecipient : Option (List Entry))
    (closeAuthority : Option Bytes) (mint : Bytes) :
    Except String AirdropConfigureContext :=
  let airdropSeed := randomBytes 32
  let verifierSeed := randomBytes 32
  let merkleAirdropState := findProgramAddress [airdropSeed] AIRDROP_PK
  let merkleVerifierState := findProgramAddress [verifierSeed] MERKLE_VERIFIER_PK
  let merkleVault := getVaultAddress findProgramAddress merkleAirdropState
  let verifierSignature := findProgramAddress [merkleVerifierState] MERKLE_VERIFIER_PK
  let merkleConfigureIx : Instruction :=
    { programId := AIRDROP_PK, method := "configure", args := [Arg.bytes airdropSeed],
      accounts := [("payer", authority), ("closeAuthority", closeAuthority.getD authority),
        ("verifierSignature", verifierSignature), ("vault", merkleVault), ("mint", mint),
        ("state", merkleAirdropState), ("tokenProgram", TOKEN_PROGRAM_ID),
        ("systemProgram", SYSTEM_PROGRAM_ID), ("rent", RENT_SYSVAR_ID)] }
  match
    match amountsByRecipient with
    | some rs => Except.ok (toBytes32Array (balanceTreeRoot rs))
    | none =>
      match merkleRoot with
      | some r => Except.ok r
      | none => Except.error ("Merkle root of amounts by recipient required")
  with
  | Except.error e => Except.error e
  | Except.ok root =>
    let merkleInitIx : Instruction :=
      { programId := MERKLE_VERIFIER_PK, method := "init",
        args := [Arg.bytes verifierSeed, Arg.bytes root],
        accounts := [("payer", authority), ("state", merkleVerifierState),
          ("airdropState", merkleAirdropState), ("systemProgram", SYSTEM_PROGRAM_ID)] }
    let transferIx := createTransferInstruction source merkleVault authority totalAmount
    let ctx : AirdropConfigureContext :=
      { transaction := [merkleConfigureIx, merkleInitIx, transferIx],
        airdropState := merkleAirdropState, verifierState := merkleVerifierState }
    Except.ok ctx

/-- `Airdrop.createConfigGovernanceTransaction`. -/
def createConfigGovernanceTransaction (source authority : Bytes)
    (totalAmount amountPerVoter : Nat) (eligibilityStart eligibilityEnd : Int)
    (governance : Bytes) (mint : Bytes) : AirdropConfigureContext :=
  let airdropSeed := randomBytes 32
  let verifierSeed := randomBytes 32
  let governanceAirdropState := findProgramAddress [airdropSeed] AIRDROP_PK
  let governanceVerifierState := findProgramAddress [verifierSeed] GOVERNANCE_VERIFIER_PK
  let governanceVault := getVaultAddress findProgramAddress governanceAirdropState
  let verifierSignature := findProgramAddress [governanceAirdropState] GOVERNANCE_VERIFIER_PK
  let governanceConfigureIx : Instruction :=
    { programId := AIRDROP_PK, method := "configure", args := [Arg.bytes airdropSeed],
      accounts := [("payer", authority), ("closeAuthority", authority),
        ("verifierSignature", verifierSignature), ("vault", governanceVault), ("mint", mint),
        ("state", governanceAirdropState), ("tokenProgram", TOKEN_PROGRAM_ID),
        ("systemProgram", SYSTEM_PROGRAM_ID), ("rent", RENT_SYSVAR_ID)] }
  let governanceInitIx : Instruction :=
    { programId := GOVERNANCE_VERIFIER_PK, method := "configure",
      args := [Arg.bytes verifierSeed, Arg.u64 amountPerVoter,
        Arg.i64 eligibilityStart, Arg.i64 eligibilityEnd],
      accounts := [("payer", authority), ("state", governanceVerifierState),
        ("airdropState", governanceAirdropState), ("governance", governance),
        ("systemProgram", SYSTEM_PROGRAM_ID)] }
  let transferIx := createTransferInstruction source governanceVault authority totalAmount
  { transaction := [governanceConfigureIx, governanceInitIx, transferIx],
    airdropState := governanceAirdropState, verifierState := governanceVerifierState }

/-- `Airdrop.createConfigOrcaTransaction`. -/
def createConfigOrcaTransaction (source authority : Bytes) (totalAmount : Nat)
    (pool : Bytes) (rewardIndex : Nat) (mint : Bytes) : AirdropConfigureContext :=
  let airdropSeed := randomBytes 32
  let verifierSeed := randomBytes 32
  let orcaAirdropState := findProgramAddress [airdropSeed] AIRDROP_PK
  let orcaVerifierState := findProgramAddress [verifierSeed] ORCA_VERIFIER_PK
  let vault := getVaultAddress findProgramAddress orcaAirdropState
  let verifierSignature := findProgramAddress [orcaAirdropState] ORCA_VERIFIER_PK
  let orcaConfigureIx : Instruction :=
    { programId := AIRDROP_PK, method := "configure", args := [Arg.bytes airdropSeed],
      accounts := [("payer", authority), ("verifierSignature", verifierSignature),
        ("vault", vault), ("mint", mint), ("state", orcaAirdropState),
        ("tokenProgram", TOKEN_PROGRAM_ID), ("systemProgram", SYSTEM_PROGRAM_ID),
        ("rent", RENT_SYSVAR_ID)] }
  let orcaInitIx : Instruction :=
    { programId := ORCA_VERIFIER_PK, method := "init",
      args := [Arg.bytes verifierSeed, Arg.u8 rewardIndex],
      accounts := [("authority", authority), ("state", orcaVerifierState),
        ("airdropState", orcaAirdropState), ("pool", pool),
        ("systemProgram", SYSTEM_PROGRAM_ID)] }
  let transferIx := createTransferInstruction source vault authority totalAmount
  { transaction := [orcaConfigureIx, orcaInitIx, transferIx],
    airdropState := orcaAirdropState, verifierState := orcaVerifierState }

/-- `Airdrop.createClaimPasswordTransaction`; `airdropState` is the field the
builder fetches from the password verifier state account. -/
def createClaimPasswordTransaction (verifierState recipient : Bytes) (amount : Nat)
    (authority : Bytes) (password : String) (airdropState : Bytes) : List Instruction :=
  let verifierSignature := findProgramAddress [airdropState] PASSWORD_VERIFIER_PK
  let vault := getVaultAddress findProgramAddress airdropState
  let passwordClaimIx : Instruction :=
    { programId := PASSWORD_VERIFIER_PK, method := "claim",
      args := [Arg.u64 amount, Arg.bytes (utf8Bytes password)],
      accounts := [("authority", authority), ("verifierState", verifierState),
        ("cpiAuthority", verifierSignature), ("airdropState", airdropState),
        ("vault", vault), ("recipient", recipient), ("tokenProgram", TOKEN_PROGRAM_ID),
        ("airdropProgram", AIRDROP_PK)] }
  [passwordClaimIx]

/-- `Airdrop.createClaimMerkleTransaction`; fails (a thrown `TypeError` in the
SDK) when the recipient has no entry in `amountsByRecipient`. -/
def createClaimMerkleTransaction (verifierState recipient : Bytes)
    (amountsByRecipient : List Entry) (authority : Bytes) (airdropState : Bytes)
    (mint : Bytes) (recipientAtaExists : Bool) : Except String (List Instruction) :=
  let recipientTokenAccount := getAssociatedTokenAddress findProgramAddress mint recipient
  let setupIxs :=
    if recipientAtaExists then []
    else [createAssociatedTokenAccountInstruction authority recipientTokenAccount recipient mint]
  let vault := getVaultAddress findProgramAddress airdropState
  match amountsByRecipient.findIdx? (fun element => element.account == recipient) with
  | none => Except.error ("no entry for recipient in amountsByRecipient")
  | some index =>
    let amount := (amountsByRecipient.getD index default).amount
    let proofBytes := (balanceTreeProof amountsByRecipient index).map toBytes32Array
    let indexData := u64le index
    let receipt :=
      findProgramAddress [utf8Bytes ("Receipt"), verifierState, indexData] MERKLE_VERIFIER_PK
    let verificationData := indexData ++ proofBytes.flatten
    let verifierSignature := findProgramAddress [verifierState] MERKLE_VERIFIER_PK
    let merkleClaimIx : Instruction :=
      { programId := MERKLE_VERIFIER_PK, method := "claim",
        args := [Arg.u64 amount, Arg.bytes verificationData],
        accounts := [("authority", authority), ("verifierState", verifierState),
          ("cpiAuthority", verifierSignature), ("airdropState", airdropState),
          ("vault", vault), ("recipient", recipientTokenAccount),
          ("tokenProgram", TOKEN_PROGRAM_ID), ("receipt", receipt),
          ("airdropProgram", AIRDROP_PK)] }
    Except.ok (setupIxs ++ [merkleClaimIx])

/-- The proposal scan loop of `Airdrop.createClaimGovernanceTransaction`:
skip candidates whose `votingAt` falls outside the eligibility window, take
the first remaining one whose vote record account exists. -/
def findEligibleProposal (votingAtOf : Bytes → Int) (accountExists : Bytes → Bool)
    (tokenOwnerRecord : Bytes) (eligibilityStart eligibilityEnd : Int) :
    List ProposalAccount → Option ProposalAccount
  | [] => none
  | p :: rest =>
    let votingAt := votingAtOf p.data
    if eligibilityEnd < votingAt || eligibilityStart > votingAt then
      findEligibleProposal votingAtOf accountExists tokenOwnerRecord
        eligibilityStart eligibilityEnd rest
    else if accountExists (getVoteRecordAddress findProgramAddress p.pubkey tokenOwnerRecord) then
      some p
    else
      findEligibleProposal votingAtOf accountExists tokenOwnerRecord
        eligibilityStart eligibilityEnd rest

/-- `Airdrop.createClaimGovernanceTransaction`; `vs` is the fetched governance
verifier state, `governanceData` and `realmData` the raw data of the
governance and realm accounts, and `programAccounts` the `getProgramAccounts`
response the scan filters. -/
def createClaimGovernanceTransaction (votingAtOf : Bytes → Int)
    (accountExists : Bytes → Bool) (verifierState recipient authority : Bytes)
    (vs : GovernanceVerifierState) (mint : Bytes) (recipientAtaExists : Bool)
    (governanceData realmData : Bytes) (programAccounts : List ProposalAccount) :
    Except String (List Instruction) :=
  let recipientTokenAccount := getAssociatedTokenAddress findProgramAddress mint recipient
  let setupIxs :=
    if recipientAtaExists then []
    else [createAssociatedTokenAccountInstruction authority recipientTokenAccount recipient mint]
  let realm := (governanceData.drop 1).take 32
  let communityMint := (realmData.drop 1).take 32
  let tokenOwnerRecordAddress :=
    getTokenOwnerRecordAddress findProgramAddress realm communityMint recipient
  let proposals := programAccounts.filter (proposalFilterMatches vs.governance communityMint)
  match findEligibleProposal findProgramAddress votingAtOf accountExists
      tokenOwnerRecordAddress vs.eligibilityStart vs.eligibilityEnd proposals with
  | none => Except.error ("Could not find VoteRecord")
  | some p =>
    let proposal := p.pubkey
    let voteRecord := getVoteRecordAddress findProgramAddress proposal tokenOwnerRecordAddress
    let receipt :=
      findProgramAddress [utf8Bytes ("Receipt"), verifierState, voteRecord]
        GOVERNANCE_VERIFIER_PK
    let verifierSignature := findProgramAddress [vs.airdropState] GOVERNANCE_VERIFIER_PK
    let vault := getVaultAddress findProgramAddress vs.airdropState
    let governanceClaimIx : Instruction :=
      { programId := GOVERNANCE_VERIFIER_PK, method := "claim", args := [],
        accounts := [("authority", authority), ("verifierState", verifierState),
          ("recipient", recipientTokenAccount), ("governance", vs.governance),
          ("proposal", proposal), ("voteRecord", voteRecord), ("receipt", receipt),
          ("cpiAuthority", verifierSignature), ("airdropState", vs.airdropState),
          ("vault", vault), ("tokenProgram", TOKEN_PROGRAM_ID),
          ("airdropProgram", AIRDROP_PK), ("systemProgram", SYSTEM_PROGRAM_ID)] }
    Except.ok (setupIxs ++ [governanceClaimIx])

end Builders

/-! ## IDL schemas and on-chain behavior referenced by the claims -/

/-- An anchor IDL argument type. -/
inductive IdlType where
  | u8
  | u64
  | i64
  | bytes
  | publicKey
  | array (elem : IdlType) (len : Nat)
  deriving DecidableEq, Repr, Inhabited

/-- Argument schema of the governance verifier's `configure` instruction
(`src/governance_verifier.json`): the seed is declared as a 64-byte array. -/
def governanceConfigureArgSchema : List (String × IdlType) :=
  [("seed", IdlType.array IdlType.u8 64), ("amountPerVoter", IdlType.u64),
   ("eligibilityStart", IdlType.i64), ("eligibilityEnd", IdlType.i64)]

/-- Argument schema of the governance verifier's `claim` instruction
(`src/governance_verifier.json`): no arguments. -/
def governanceClaimArgSchema : List (String × IdlType) := []

/-- Argument schema of the core airdrop `configure` instruction
(`dual_airdrop.json`): the state seed is declared as a 32-byte array. -/
def airdropConfigureArgSchema : List (String × IdlType) :=
  [("stateSeed", IdlType.array IdlType.u8 32)]

/-- Modelled from the spec: the password verifier accepts a claim iff the
keccak-256 hash of the presented proof bytes equals the stored password
hash (`valid iff hash(password) == stored_password_hash`); the on-chain
program itself is outside the repository. -/
def passwordVerify (storedHash proof : Bytes) : Bool :=
  keccak256 proof == storedHash

/-- Modelled from the spec: on a successful governance claim the amount paid
is the `amount_per_voter` recorded in the verifier state at configure time;
the on-chain program itself is outside the repository. -/
def governanceClaimPayout (vs : GovernanceVerifierState) : Nat :=
  vs.amountPerVoter

/-! ## Statement helpers and concrete fixtures -/

/-- The account bound to `name` in a built instruction. -/
def accountOf (ix : Instruction) (name : String) : Bytes :=
  (ix.accounts.lookup name).getD []

/-- The spec's characterization of an eligible candidate proposal: `votingAt`
inside the inclusive eligibility window and an existing vote record for the
recipient's token-owner record. -/
def isEligibleProposal (f : List Bytes → Bytes → Bytes) (votingAtOf : Bytes → Int)
    (accountExists : Bytes → Bool) (tokenOwnerRecord : Bytes)
    (eligibilityStart eligibilityEnd : Int) (p : ProposalAccount) : Bool :=
  decide (eligibilityStart ≤ votingAtOf p.data) &&
    decide (votingAtOf p.data ≤ eligibilityEnd) &&
    accountExists (getVoteRecordAddress f p.pubkey tokenOwnerRecord)

/-- The token-owner-record address the governance claim builder derives from
its governance and realm account reads. -/
def claimTokenOwnerRecord (f : List Bytes → Bytes → Bytes)
    (governanceData realmData recipient : Bytes) : Bytes :=
  getTokenOwnerRecordAddress f ((governanceData.drop 1).take 32)
    ((realmData.drop 1).take 32) recipient

/-- The proposal candidates surviving the governance claim builder's scan
filters. -/
def filteredProposals (vs : GovernanceVerifierState) (realmData : Bytes)
    (accounts : List ProposalAccount) : List ProposalAccount :=
  accounts.filter (proposalFilterMatches vs.governance ((realmData.drop 1).take 32))

/-- A cheap executable stand-in for the PDA derivation, used in concrete
evaluations. -/
def pdaW : List Bytes → Bytes → Bytes := fun seeds programId => seeds.flatten ++ programId

/-- A deterministic stand-in for `crypto.randomBytes`, used in concrete
evaluations. -/
def randW : Nat → Bytes := fun n => List.replicate n 7

/-- First fixture recipient. -/
def entryA : Entry := { account := List.replicate 32 1, amount := 100 }

/-- Second fixture recipient. -/
def entryB : Entry := { account := List.replicate 32 2, amount := 101 }

/-- Fixture output of the Merkle claim builder for the single recipient
`entryA`. -/
def merkleClaimIxsW : List Instruction :=
  (createClaimMerkleTransaction pdaW (List.replicate 32 3) entryA.account [entryA]
    (List.replicate 32 4) (List.replicate 32 5) (List.replicate 32 6) true).toOption.getD []

/-- Fixture governance verifier state. -/
def govStateW : GovernanceVerifierState :=
  { governance := List.replicate 32 8, eligibilityStart := 0, eligibilityEnd := 10,
    amountPerVoter := 50, airdropState := List.replicate 32 5 }

/-- Fixture proposal account matching the scan filters for `govStateW` and a
community mint of 32 bytes of 10. -/
def proposalW : ProposalAccount :=
  { pubkey := List.replicate 32 9, data := 14 :: (List.replicate 32 8 ++ List.replicate 32 10) }

/-- Fixture governance account data: realm is 32 bytes of 11. -/
def governanceDataW : Bytes := 0 :: List.replicate 32 11

/-- Fixture realm account data: community mint is 32 bytes of 10. -/
def realmDataW : Bytes := 0 :: List.replicate 32 10

/-- Fixture output of the governance claim builder. -/
def govClaimIxsW : List Instruction :=
  (createClaimGovernanceTransaction pdaW (fun _ => 5) (fun _ => true)
    (List.replicate 32 3) entryA.account (List.replicate 32 4) govStateW
    (List.replicate 32 6) true governanceDataW realmDataW [proposalW]).toOption.getD []

/-! ## Supporting lemmas -/

theorem leafHash_length (i : Nat) (a : Bytes) (m : Nat) : (leafHash i a m).length = 32 :=
  keccak256_length _

theorem nodeHash_length (a b : Bytes) : (nodeHash a b).length = 32 :=
  keccak256_length _

theorem mem_leavesOf_length (rs : List Entry) : ∀ y ∈ leavesOf rs, y.length = 32 := by
  intro y hy
  simp only [leavesOf, List.mem_map] at hy
  obtain ⟨p, _, rfl⟩ := hy
  exact leafHash_length _ _ _

theorem mem_hashLevel_length (l : List Bytes) (h : ∀ y ∈ l, y.length = 32) :
    ∀ y ∈ hashLevel l, y.length = 32 := by
  induction l using hashLevel.induct with
  | case1 => simp [hashLevel]
  | case2 x => simpa [hashLevel] using h
  | case3 x y rest ih =>
    intro z hz
    simp only [hashLevel, List.mem_cons] at hz
    rcases hz with rfl | hz
    · exact nodeHash_length _ _
    · exact ih (fun w hw => h w (by simp [hw])) z hz

theorem getD_mem_of_lt (l : List Bytes) (k : Nat) (hk : k < l.length) :
    l.getD k [] ∈ l := by
  rw [List.getD_eq_getElem _ _ hk]
  exact List.getElem_mem hk

theorem mem_siblingOf_length (l : List Bytes) (i : Nat) (h : ∀ y ∈ l, y.length = 32)
    (hi : i < l.length) : ∀ x ∈ siblingOf l i, x.length = 32 := by
  intro x hx
  unfold siblingOf at hx
  by_cases he : i % 2 = 0
  · simp only [he, if_true] at hx
    by_cases hb : i + 1 < l.length
    · simp only [hb, if_pos, List.mem_singleton] at hx
      subst hx
      exact h _ (getD_mem_of_lt l (i + 1) hb)
    · simp [hb] at hx
  · simp only [he, if_false, List.mem_singleton] at hx
    subst hx
    exact h _ (getD_mem_of_lt l (i - 1) (by omega))

theorem mem_proofFromFuel_length (fuel : Nat) :
    ∀ (l : List Bytes) (i : Nat), (∀ y ∈ l, y.length = 32) → i < l.length →
      ∀ x ∈ proofFromFuel fuel l i, x.length = 32 := by
  induction fuel with
  | zero => intro l i _ _ x hx; simp [proofFromFuel] at hx
  | succ fuel ih =>
    intro l i h hi x hx
    by_cases h1 : l.length ≤ 1
    · simp [proofFromFuel, h1] at hx
    · simp only [proofFromFuel, if_neg h1, List.mem_append] at hx
      rcases hx with hx | hx
      · exact mem_siblingOf_length l i h hi x hx
      · exact ih (hashLevel l) (i / 2) (mem_hashLevel_length l h)
          (by rw [hashLevel_length]; omega) x hx

theorem mem_balanceTreeProof_length (rs : List Entry) (i : Nat) (hi : i < rs.length) :
    ∀ x ∈ balanceTreeProof rs i, x.length = 32 := by
  have hlen : i < (leavesOf rs).length := by rw [leavesOf_length]; exact hi
  exact mem_proofFromFuel_length _ _ _ (mem_leavesOf_length rs) hlen

theorem toBytes32Array_of_length32 (b : Bytes) (h : b.length = 32) :
    toBytes32Array b = b := by
  simp [toBytes32Array, h]

theorem flatten_length_of_all32 (L : List Bytes) (h : ∀ x ∈ L, x.length = 32) :
    L.flatten.length = 32 * L.length := by
  induction L with
  | nil => simp
  | cons x xs ih =>
    simp only [List.flatten_cons, List.length_append, List.length_cons,
      h x (by simp), ih (fun y hy => h y (by simp [hy]))]
    ring

/-! ## The claims -/

/-- C1: the builders derive program-owned addresses exactly by the specified
seed formulas. `getVaultAddress S` is the program-derived address of
`["Vault", S]` under the airdrop program id; the Merkle claim's receipt
account is the program-derived address of `["Receipt", verifierState,
8-byte little-endian leaf index]` under the merkle verifier program id; the
governance claim's receipt account is the program-derived address of
`["Receipt", verifierState, voteRecord]` under the governance verifier
program id. -/
theorem vault_and_receipt_derivations (f : List Bytes → Bytes → Bytes) :
    (∀ S : Bytes, getVaultAddress f S = f [utf8Bytes ("Vault"), S] AIRDROP_PK)
    ∧ (∀ (verifierState recipient : Bytes) (rs : List Entry)
        (authority airdropState mint : Bytes) (ataExists : Bool)
        (ixs : List Instruction) (index : Nat),
        rs.findIdx? (fun element => element.account == recipient) = some index →
        createClaimMerkleTransaction f verifierState recipient rs authority
          airdropState mint ataExists = Except.ok ixs →
        ∃ ix, ixs.getLast? = some ix ∧
          accountOf ix "receipt" =
            f [utf8Bytes ("Receipt"), verifierState, u64le index] MERKLE_VERIFIER_PK)
    ∧ (∀ (votingAtOf : Bytes → Int) (accountExists : Bytes → Bool)
        (verifierState recipient authority : Bytes) (vs : GovernanceVerifierState)
        (mint : Bytes) (ataExists : Bool) (governanceData realmData : Bytes)
        (programAccounts : List ProposalAccount) (ixs : List Instruction),
        createClaimGovernanceTransaction f votingAtOf accountExists verifierState
          recipient authority vs mint ataExists governanceData realmData
          programAccounts = Except.ok ixs →
        ∃ ix, ixs.getLast? = some ix ∧
          accountOf ix "receipt" =
            f [utf8Bytes ("Receipt"), verifierState, accountOf ix "voteRecord"]
              GOVERNANCE_VERIFIER_PK) := by
  refine ⟨fun S => rfl, ?_, ?_⟩
  · intro verifierState recipient rs authority airdropState mint ataExists ixs index hidx hok
    simp only [createClaimMerkleTransaction, hidx, Except.ok.injEq] at hok
    subst hok
    refine ⟨_, List.getLast?_concat _, ?_⟩
    simp [accountOf, List.lookup]
  · intro votingAtOf accountExists verifierState recipient authority vs mint ataExists
      governanceData realmData programAccounts ixs hok
    cases hp : findEligibleProposal f votingAtOf accountExists
        (getTokenOwnerRecordAddress f ((governanceData.drop 1).take 32)
          ((realmData.drop 1).take 32) recipient)
        vs.eligibilityStart vs.eligibilityEnd
        (programAccounts.filter
          (proposalFilterMatches vs.governance ((realmData.drop 1).take 32))) with
    | none =>
      simp only [createClaimGovernanceTransaction, hp] at hok
      exact absurd hok (by simp)
    | some p =>
      simp only [createClaimGovernanceTransaction, hp, Except.ok.injEq] at hok
      subst hok
      refine ⟨_, List.getLast?_concat _, ?_⟩
      simp [accountOf, List.lookup]

/-- Witness for C1: concrete Merkle and governance claims, with
`pdaW` standing in for the PDA derivation. -/
theorem vault_and_receipt_derivations_witness :
    (∃ ix, merkleClaimIxsW.getLast? = some ix ∧
      accountOf ix "receipt" =
        pdaW [utf8Bytes ("Receipt"), List.replicate 32 3, u64le 0] MERKLE_VERIFIER_PK)
    ∧ (∃ ix, govClaimIxsW.getLast? = some ix ∧
        accountOf ix "receipt" =
          pdaW [utf8Bytes ("Receipt"), List.replicate 32 3, accountOf ix "voteRecord"]
            GOVERNANCE_VERIFIER_PK) :=
  ⟨(vault_and_receipt_derivations pdaW).2.1 (List.replicate 32 3) entryA.account [entryA]
      (List.replicate 32 4) (List.replicate 32 5) (List.replicate 32 6) true
      merkleClaimIxsW 0 (by decide) rfl,
   (vault_and_receipt_derivations pdaW).2.2 (fun _ => 5) (fun _ => true)
      (List.replicate 32 3) entryA.account (List.replicate 32 4) govStateW
      (List.replicate 32 6) true governanceDataW realmDataW [proposalW]
      govClaimIxsW rfl⟩

set_option maxRecDepth 1000000 in
/-- C2: for every recipient list and every index into it, verifying the
sibling path returned by `BalanceTree.getProof` against the leaf hash of
`(i, account_i, amount_i)` reproduces `BalanceTree.getRoot`; and the root is
order-sensitive: swapping two distinct recipients changes it, witnessed on an
explicit pair. -/
theorem balance_tree_round_trip_and_order :
    (∀ (rs : List Entry) (i : Nat), i < rs.length →
      verifyProof (balanceTreeProof rs i)
        (leafHash i (rs.getD i default).account (rs.getD i default).amount) =
        balanceTreeRoot rs)
    ∧ balanceTreeRoot [entryA, entryB] ≠ balanceTreeRoot [entryB, entryA] := by
  constructor
  · intro rs i hi
    have h2 : i < (leavesOf rs).length := by rw [leavesOf_length]; exact hi
    rw [balanceTreeProof, balanceTreeRoot, ← leavesOf_getD rs i hi]
    exact verify_proofFrom _ i h2
  · decide

/-- Witness for C2: the round trip at a concrete one-leaf tree. -/
theorem balance_tree_round_trip_witness :
    0 < ([entryA] : List Entry).length ∧
      verifyProof (balanceTreeProof [entryA] 0)
        (leafHash 0 (([entryA] : List Entry).getD 0 default).account
          (([entryA] : List Entry).getD 0 default).amount) =
        balanceTreeRoot [entryA] :=
  ⟨by decide, balance_tree_round_trip_and_order.1 [entryA] 0 (by decide)⟩

/-- C3: the `verificationData` argument of a built Merkle claim is exactly the
leaf index as a little-endian u64 followed by the 32-byte proof siblings
concatenated in bottom-up order — `8 + 32 * n` bytes with nothing else
appended. -/
theorem merkle_verification_data_layout (f : List Bytes → Bytes → Bytes)
    (verifierState recipient : Bytes) (rs : List Entry)
    (authority airdropState mint : Bytes) (ataExists : Bool)
    (ixs : List Instruction) (index : Nat)
    (hidx : rs.findIdx? (fun element => element.account == recipient) = some index)
    (hok : createClaimMerkleTransaction f verifierState recipient rs authority
      airdropState mint ataExists = Except.ok ixs) :
    ∃ ix, ixs.getLast? = some ix ∧
      ix.args = [Arg.u64 (rs.getD index default).amount,
        Arg.bytes (u64le index ++ (balanceTreeProof rs index).flatten)] ∧
      (u64le index ++ (balanceTreeProof rs index).flatten).length =
        8 + 32 * (balanceTreeProof rs index).length := by
  have hlt : index < rs.length := (List.findIdx?_eq_some_iff_getElem.mp hidx).1
  have h32 := mem_balanceTreeProof_length rs index hlt
  have hmap : (balanceTreeProof rs index).map toBytes32Array = balanceTreeProof rs index := by
    rw [List.map_congr_left (fun x hx => toBytes32Array_of_length32 x (h32 x hx))]
    exact List.map_id _
  simp only [createClaimMerkleTransaction, hidx, Except.ok.injEq] at hok
  subst hok
  refine ⟨_, List.getLast?_concat _, ?_, ?_⟩
  · simp [hmap]
  · simp only [List.length_append, u64le_length,
      flatten_length_of_all32 (balanceTreeProof rs index) h32]

/-- Witness for C3: the Merkle claim over a single entry — empty proof,
eight-byte verification data. -/
theorem merkle_verification_data_layout_witness :
    ∃ ix, merkleClaimIxsW.getLast? = some ix ∧
      ix.args = [Arg.u64 (([entryA] : List Entry).getD 0 default).amount,
        Arg.bytes (u64le 0 ++ (balanceTreeProof [entryA] 0).flatten)] ∧
      (u64le 0 ++ (balanceTreeProof [entryA] 0).flatten).length =
        8 + 32 * (balanceTreeProof [entryA] 0).length :=
  merkle_verification_data_layout pdaW (List.replicate 32 3) entryA.account [entryA]
    (List.replicate 32 4) (List.replicate 32 5) (List.replicate 32 6) true
    merkleClaimIxsW 0 (by decide) rfl

/-- The scan loop takes the first list element satisfying the spec's
eligibility characterization. -/
theorem findEligibleProposal_eq_find? (f : List Bytes → Bytes → Bytes)
    (votingAtOf : Bytes → Int) (accountExists : Bytes → Bool) (tokenOwnerRecord : Bytes)
    (eligibilityStart eligibilityEnd : Int) (l : List ProposalAccount) :
    findEligibleProposal f votingAtOf accountExists tokenOwnerRecord
      eligibilityStart eligibilityEnd l =
      l.find? (isEligibleProposal f votingAtOf accountExists tokenOwnerRecord
        eligibilityStart eligibilityEnd) := by
  induction l with
  | nil => rfl
  | cons p rest ih =>
    simp only [findEligibleProposal]
    split
    · next h =>
      have hb : ¬ (isEligibleProposal f votingAtOf accountExists tokenOwnerRecord
          eligibilityStart eligibilityEnd p = true) := by
        simp only [Bool.or_eq_true, decide_eq_true_eq] at h
        simp only [isEligibleProposal, Bool.and_eq_true, decide_eq_true_eq]
        rintro ⟨⟨h1, h2⟩, -⟩
        rcases h with h | h <;> omega
      rw [List.find?_cons_of_neg _ hb]
      exact ih
    · next h =>
      simp only [Bool.or_eq_true, decide_eq_true_eq, not_or, not_lt, gt_iff_lt] at h
      split
      · next hae =>
        have hb : isEligibleProposal f votingAtOf accountExists tokenOwnerRecord
            eligibilityStart eligibilityEnd p = true := by
          simp only [isEligibleProposal, Bool.and_eq_true, decide_eq_true_eq]
          exact ⟨⟨h.2, h.1⟩, hae⟩
        rw [List.find?_cons_of_pos _ hb]
      · next hae =>
        have hb : ¬ (isEligibleProposal f votingAtOf accountExists tokenOwnerRecord
            eligibilityStart eligibilityEnd p = true) := by
          simp only [isEligibleProposal, Bool.and_eq_true, decide_eq_true_eq]
          rintro ⟨-, hb'⟩
          exact hae hb'
        rw [List.find?_cons_of_neg _ hb]
        exact ih

/-- C4: the governance claim builder scans the proposal accounts surviving
the account-type/governance/community-mint filters; it selects the first
whose `votingAt` lies in the inclusive eligibility window and whose vote
record exists; a selected proposal always satisfies the window, so one with
`votingAt` outside it is never selected; with no eligible candidate the
builder fails with an error and returns no transaction. -/
theorem governance_claim_proposal_selection (f : List Bytes → Bytes → Bytes)
    (votingAtOf : Bytes → Int) (accountExists : Bytes → Bool)
    (verifierState recipient authority : Bytes) (vs : GovernanceVerifierState)
    (mint : Bytes) (ataExists : Bool) (governanceData realmData : Bytes)
    (programAccounts : List ProposalAccount) :
    (findEligibleProposal f votingAtOf accountExists
        (claimTokenOwnerRecord f governanceData realmData recipient)
        vs.eligibilityStart vs.eligibilityEnd
        (filteredProposals vs realmData programAccounts) =
      (filteredProposals vs realmData programAccounts).find?
        (isEligibleProposal f votingAtOf accountExists
          (claimTokenOwnerRecord f governanceData realmData recipient)
          vs.eligibilityStart vs.eligibilityEnd))
    ∧ (∀ p, (filteredProposals vs realmData programAccounts).find?
          (isEligibleProposal f votingAtOf accountExists
            (claimTokenOwnerRecord f governanceData realmData recipient)
            vs.eligibilityStart vs.eligibilityEnd) = some p →
        vs.eligibilityStart ≤ votingAtOf p.data ∧
        votingAtOf p.data ≤ vs.eligibilityEnd ∧
        accountExists (getVoteRecordAddress f p.pubkey
          (claimTokenOwnerRecord f governanceData realmData recipient)) = true ∧
        p ∈ programAccounts ∧
        proposalFilterMatches vs.governance ((realmData.drop 1).take 32) p = true ∧
        ∃ ixs ix, createClaimGovernanceTransaction f votingAtOf accountExists
            verifierState recipient authority vs mint ataExists governanceData
            realmData programAccounts = Except.ok ixs ∧
          ixs.getLast? = some ix ∧ accountOf ix "proposal" = p.pubkey)
    ∧ ((filteredProposals vs realmData programAccounts).find?
          (isEligibleProposal f votingAtOf accountExists
            (claimTokenOwnerRecord f governanceData realmData recipient)
            vs.eligibilityStart vs.eligibilityEnd) = none →
        createClaimGovernanceTransaction f votingAtOf accountExists verifierState
          recipient authority vs mint ataExists governanceData realmData
          programAccounts = Except.error ("Could not find VoteRecord")) := by
  have hfind := findEligibleProposal_eq_find? f votingAtOf accountExists
    (claimTokenOwnerRecord f governanceData realmData recipient)
    vs.eligibilityStart vs.eligibilityEnd (filteredProposals vs realmData programAccounts)
  refine ⟨hfind, ?_, ?_⟩
  · intro p hp
    have he := List.find?_some hp
    have hm := List.mem_of_find?_eq_some hp
    simp only [isEligibleProposal, Bool.and_eq_true, decide_eq_true_eq] at he
    simp only [filteredProposals, List.mem_filter] at hm
    have hsel : findEligibleProposal f votingAtOf accountExists
        (getTokenOwnerRecordAddress f ((governanceData.drop 1).take 32)
          ((realmData.drop 1).take 32) recipient)
        vs.eligibilityStart vs.eligibilityEnd
        (programAccounts.filter
          (proposalFilterMatches vs.governance ((realmData.drop 1).take 32))) = some p := by
      simpa [claimTokenOwnerRecord, filteredProposals] using hfind.trans hp
    refine ⟨he.1.1, he.1.2, he.2, hm.1, hm.2, ?_⟩
    simp only [createClaimGovernanceTransaction, hsel]
    exact ⟨_, _, rfl, List.getLast?_concat _, by simp [accountOf, List.lookup]⟩
  · intro hnone
    have hsel : findEligibleProposal f votingAtOf accountExists
        (getTokenOwnerRecordAddress f ((governanceData.drop 1).take 32)
          ((realmData.drop 1).take 32) recipient)
        vs.eligibilityStart vs.eligibilityEnd
        (programAccounts.filter
          (proposalFilterMatches vs.governance ((realmData.drop 1).take 32))) = none := by
      simpa [claimTokenOwnerRecord, filteredProposals] using hfind.trans hnone
    simp only [createClaimGovernanceTransaction, hsel]

/-- Witness for C4: the fixture proposal is the first (and only) eligible
candidate, and the builder succeeds on it. -/
theorem governance_claim_proposal_selection_witness :
    govStateW.eligibilityStart ≤ (fun _ => (5 : Int)) proposalW.data ∧
    (fun _ => (5 : Int)) proposalW.data ≤ govStateW.eligibilityEnd ∧
    (fun _ => true) (getVoteRecordAddress pdaW proposalW.pubkey
      (claimTokenOwnerRecord pdaW governanceDataW realmDataW entryA.account)) = true ∧
    proposalW ∈ [proposalW] ∧
    proposalFilterMatches govStateW.governance ((realmDataW.drop 1).take 32) proposalW = true ∧
    ∃ ixs ix, createClaimGovernanceTransaction pdaW (fun _ => 5) (fun _ => true)
        (List.replicate 32 3) entryA.account (List.replicate 32 4) govStateW
        (List.replicate 32 6) true governanceDataW realmDataW [proposalW] =
        Except.ok ixs ∧
      ixs.getLast? = some ix ∧ accountOf ix "proposal" = proposalW.pubkey :=
  (governance_claim_proposal_selection pdaW (fun _ => 5) (fun _ => true)
    (List.replicate 32 3) entryA.account (List.replicate 32 4) govStateW
    (List.replicate 32 6) true governanceDataW realmDataW [proposalW]).2.1
    proposalW (by decide)

/-- C5: the stored password hash is exactly keccak-256 of the password's
UTF-8 bytes, the claim proof is exactly those UTF-8 bytes, hashing the claim
proof reproduces the stored hash, and a password whose keccak-256 differs has
different UTF-8 bytes (matching only up to keccak collisions). -/
theorem password_hash_round_trip (f : List Bytes → Bytes → Bytes)
    (rand : Nat → Bytes) (source : Bytes) (amount amountClaim : Nat)
    (authority mint verifierState recipient airdropState : Bytes) (p p' : String)
    (hneq : keccak256 (utf8Bytes p') ≠ keccak256 (utf8Bytes p)) :
    ((createConfigPasswordTransaction f rand source amount authority p
        mint).transaction.getD 1 default).args.getD 1 default =
      Arg.bytes (keccak256 (utf8Bytes p))
    ∧ ((createClaimPasswordTransaction f verifierState recipient amountClaim authority p
        airdropState).getD 0 default).args.getD 1 default = Arg.bytes (utf8Bytes p)
    ∧ passwordVerify (keccak256 (utf8Bytes p)) (utf8Bytes p) = true
    ∧ passwordVerify (keccak256 (utf8Bytes p)) (utf8Bytes p') = false
    ∧ utf8Bytes p' ≠ utf8Bytes p := by
  refine ⟨rfl, rfl, ?_, ?_, ?_⟩
  · simp [passwordVerify]
  · simpa [passwordVerify] using beq_eq_false_iff_ne.mpr hneq
  · intro h
    exact hneq (by rw [h])

set_option maxRecDepth 1000000 in
/-- Witness for C5 at the passwords "a" and "b". -/
theorem password_hash_round_trip_witness :
    ((createConfigPasswordTransaction pdaW randW [] 9 [] "a"
        []).transaction.getD 1 default).args.getD 1 default =
      Arg.bytes (keccak256 (utf8Bytes "a"))
    ∧ ((createClaimPasswordTransaction pdaW [] [] 9 [] "a"
        []).getD 0 default).args.getD 1 default = Arg.bytes (utf8Bytes "a")
    ∧ passwordVerify (keccak256 (utf8Bytes "a")) (utf8Bytes "a") = true
    ∧ passwordVerify (keccak256 (utf8Bytes "a")) (utf8Bytes "b") = false
    ∧ utf8Bytes "b" ≠ utf8Bytes "a" :=
  password_hash_round_trip pdaW randW [] 9 9 [] [] [] [] [] "a" "b"
    (by decide)

/-- C6: a built governance claim instruction has an empty argument list —
matching the IDL's empty `claim` argument schema — so the payout amount is
the `amount_per_voter` fixed in the verifier state at configure time, not a
caller-supplied value. -/
theorem governance_claim_has_no_amount_argument (f : List Bytes → Bytes → Bytes)
    (votingAtOf : Bytes → Int) (accountExists : Bytes → Bool)
    (verifierState recipient authority : Bytes) (vs : GovernanceVerifierState)
    (mint : Bytes) (ataExists : Bool) (governanceData realmData : Bytes)
    (programAccounts : List ProposalAccount) (ixs : List Instruction)
    (hok : createClaimGovernanceTransaction f votingAtOf accountExists verifierState
      recipient authority vs mint ataExists governanceData realmData programAccounts =
      Except.ok ixs) :
    (∃ ix, ixs.getLast? = some ix ∧ ix.programId = GOVERNANCE_VERIFIER_PK ∧
      ix.method = "claim" ∧ ix.args = [])
    ∧ governanceClaimArgSchema = []
    ∧ governanceClaimPayout vs = vs.amountPerVoter := by
  refine ⟨?_, rfl, rfl⟩
  cases hp : findEligibleProposal f votingAtOf accountExists
      (getTokenOwnerRecordAddress f ((governanceData.drop 1).take 32)
        ((realmData.drop 1).take 32) recipient)
      vs.eligibilityStart vs.eligibilityEnd
      (programAccounts.filter
        (proposalFilterMatches vs.governance ((realmData.drop 1).take 32))) with
  | none =>
    simp only [createClaimGovernanceTransaction, hp] at hok
    exact absurd hok (by simp)
  | some p =>
    simp only [createClaimGovernanceTransaction, hp, Except.ok.injEq] at hok
    subst hok
    exact ⟨_, List.getLast?_concat _, rfl, rfl, rfl⟩

/-- Witness for C6 on the governance claim fixture. -/
theorem governance_claim_has_no_amount_argument_witness :
    (∃ ix, govClaimIxsW.getLast? = some ix ∧ ix.programId = GOVERNANCE_VERIFIER_PK ∧
      ix.method = "claim" ∧ ix.args = [])
    ∧ governanceClaimArgSchema = []
    ∧ governanceClaimPayout govStateW = govStateW.amountPerVoter :=
  governance_claim_has_no_amount_argument pdaW (fun _ => 5) (fun _ => true)
    (List.replicate 32 3) entryA.account (List.replicate 32 4) govStateW
    (List.replicate 32 6) true governanceDataW realmDataW [proposalW]
    govClaimIxsW rfl

/-- C7 (code bug): the governance verifier's IDL declares the configure seed
argument as a 64-byte array, but the builder passes `crypto.randomBytes(32)`,
a 32-byte seed; the airdrop state seed is 32 bytes, matching its declaration. -/
theorem governance_configure_seed_length (f : List Bytes → Bytes → Bytes)
    (rand : Nat → Bytes) (hrand : ∀ n, (rand n).length = n)
    (source authority : Bytes) (totalAmount amountPerVoter : Nat)
    (eligibilityStart eligibilityEnd : Int) (governance mint : Bytes) :
    ∃ seed stateSeed : Bytes,
      ((createConfigGovernanceTransaction f rand source authority totalAmount
          amountPerVoter eligibilityStart eligibilityEnd governance
          mint).transaction.getD 1 default).args.getD 0 default = Arg.bytes seed ∧
      seed.length = 32 ∧
      governanceConfigureArgSchema.getD 0 ("", IdlType.u8) =
        ("seed", IdlType.array IdlType.u8 64) ∧
      seed.length ≠ 64 ∧
      ((createConfigGovernanceTransaction f rand source authority totalAmount
          amountPerVoter eligibilityStart eligibilityEnd governance
          mint).transaction.getD 0 default).args.getD 0 default = Arg.bytes stateSeed ∧
      stateSeed.length = 32 ∧
      airdropConfigureArgSchema.getD 0 ("", IdlType.u8) =
        ("stateSeed", IdlType.array IdlType.u8 32) := by
  refine ⟨rand 32, rand 32, rfl, hrand 32, rfl, ?_, rfl, hrand 32, rfl⟩
  rw [hrand 32]
  omega

/-- Witness for C7 with the deterministic `randW` randomness. -/
theorem governance_configure_seed_length_witness :
    ∃ seed stateSeed : Bytes,
      ((createConfigGovernanceTransaction pdaW randW [] [] 9 9 0 0 []
          []).transaction.getD 1 default).args.getD 0 default = Arg.bytes seed ∧
      seed.length = 32 ∧
      governanceConfigureArgSchema.getD 0 ("", IdlType.u8) =
        ("seed", IdlType.array IdlType.u8 64) ∧
      seed.length ≠ 64 ∧
      ((createConfigGovernanceTransaction pdaW randW [] [] 9 9 0 0 []
          []).transaction.getD 0 default).args.getD 0 default = Arg.bytes stateSeed ∧
      stateSeed.length = 32 ∧
      airdropConfigureArgSchema.getD 0 ("", IdlType.u8) =
        ("stateSeed", IdlType.array IdlType.u8 32) :=
  governance_configure_seed_length pdaW randW (fun n => by simp [randW]) [] [] 9 9 0 0 [] []

/-- C8: every configure builder returns the core airdrop configure
instruction first, then (for every policy except basic) the verifier
init/configure instruction, and finally exactly one token transfer of the
full requested amount from the source account into the derived vault. -/
theorem configure_transaction_layouts (f : List Bytes → Bytes → Bytes)
    (rand : Nat → Bytes) (source authority mint pool governance : Bytes)
    (amount totalAmount amountPerVoter rewardIndex : Nat)
    (eligibilityStart eligibilityEnd : Int) (password : String)
    (rs : List Entry) (merkleRoot closeAuthority : Option Bytes) :
    ((createConfigBasicTransaction f rand source amount authority mint).transaction.map
        Instruction.method = ["configure", "transfer"] ∧
      (createConfigBasicTransaction f rand source amount authority mint).transaction.map
        Instruction.programId = [AIRDROP_PK, TOKEN_PROGRAM_ID] ∧
      (createConfigBasicTransaction f rand source amount authority
          mint).transaction.filter (fun ix => ix.method == "transfer") =
        [createTransferInstruction source
          (getVaultAddress f
            (createConfigBasicTransaction f rand source amount authority
              mint).airdropState) authority amount])
    ∧ ((createConfigPasswordTransaction f rand source amount authority password
          mint).transaction.map Instruction.method = ["configure", "init", "transfer"] ∧
      (createConfigPasswordTransaction f rand source amount authority password
          mint).transaction.map Instruction.programId =
        [AIRDROP_PK, PASSWORD_VERIFIER_PK, TOKEN_PROGRAM_ID] ∧
      (createConfigPasswordTransaction f rand source amount authority password
          mint).transaction.filter (fun ix => ix.method == "transfer") =
        [createTransferInstruction source
          (getVaultAddress f
            (createConfigPasswordTransaction f rand source amount authority password
              mint).airdropState) authority amount])
    ∧ (∃ ctx, createConfigMerkleTransaction f rand source authority totalAmount
          merkleRoot (some rs) closeAuthority mint = Except.ok ctx ∧
        ctx.transaction.map Instruction.method = ["configure", "init", "transfer"] ∧
        ctx.transaction.map Instruction.programId =
          [AIRDROP_PK, MERKLE_VERIFIER_PK, TOKEN_PROGRAM_ID] ∧
        ctx.transaction.filter (fun ix => ix.method == "transfer") =
          [createTransferInstruction source (getVaultAddress f ctx.airdropState)
            authority totalAmount])
    ∧ ((createConfigGovernanceTransaction f rand source authority totalAmount
          amountPerVoter eligibilityStart eligibilityEnd governance
          mint).transaction.map Instruction.method =
        ["configure", "configure", "transfer"] ∧
      (createConfigGovernanceTransaction f rand source authority totalAmount
          amountPerVoter eligibilityStart eligibilityEnd governance
          mint).transaction.map Instruction.programId =
        [AIRDROP_PK, GOVERNANCE_VERIFIER_PK, TOKEN_PROGRAM_ID] ∧
      (createConfigGovernanceTransaction f rand source authority totalAmount
          amountPerVoter eligibilityStart eligibilityEnd governance
          mint).transaction.filter (fun ix => ix.method == "transfer") =
        [createTransferInstruction source
          (getVaultAddress f
            (createConfigGovernanceTransaction f rand source authority totalAmount
              amountPerVoter eligibilityStart eligibilityEnd governance
              mint).airdropState) authority totalAmount])
    ∧ ((createConfigOrcaTransaction f rand source authority totalAmount pool
          rewardIndex mint).transaction.map Instruction.method =
        ["configure", "init", "transfer"] ∧
      (createConfigOrcaTransaction f rand source authority totalAmount pool
          rewardIndex mint).transaction.map Instruction.programId =
        [AIRDROP_PK, ORCA_VERIFIER_PK, TOKEN_PROGRAM_ID] ∧
      (createConfigOrcaTransaction f rand source authority totalAmount pool
          rewardIndex mint).transaction.filter (fun ix => ix.method == "transfer") =
        [createTransferInstruction source
          (getVaultAddress f
            (createConfigOrcaTransaction f rand source authority totalAmount pool
              rewardIndex mint).airdropState) authority totalAmount]) := by
  exact ⟨⟨rfl, rfl, rfl⟩, ⟨rfl, rfl, rfl⟩, ⟨_, rfl, rfl, rfl, rfl⟩,
    ⟨rfl, rfl, rfl⟩, ⟨rfl, rfl, rfl⟩⟩

/-- C9: the Merkle claim builder requires the recipient to appear in
`amountsByRecipient`: with no matching entry it fails before producing any
transaction; with a match it uses the first matching entry's index and amount
for the leaf, proof and claim arguments. -/
theorem merkle_claim_requires_recipient_entry (f : List Bytes → Bytes → Bytes)
    (verifierState recipient : Bytes) (rs : List Entry)
    (authority airdropState mint : Bytes) (ataExists : Bool) :
    ((∀ e ∈ rs, e.account ≠ recipient) →
      createClaimMerkleTransaction f verifierState recipient rs authority
        airdropState mint ataExists =
        Except.error ("no entry for recipient in amountsByRecipient"))
    ∧ (∀ index, rs.findIdx? (fun element => element.account == recipient) = some index →
        (rs.getD index default).account = recipient ∧
        (∀ j, j < index → (rs.getD j default).account ≠ recipient) ∧
        ∃ ixs ix, createClaimMerkleTransaction f verifierState recipient rs authority
            airdropState mint ataExists = Except.ok ixs ∧
          ixs.getLast? = some ix ∧
          ix.args.getD 0 default = Arg.u64 (rs.getD index default).amount ∧
          ix.args.getD 1 default = Arg.bytes (u64le index ++
            ((balanceTreeProof rs index).map toBytes32Array).flatten)) := by
  constructor
  · intro hno
    have hnone : rs.findIdx? (fun element => element.account == recipient) = none := by
      rw [List.findIdx?_eq_none_iff]
      intro e he
      simpa using hno e he
    simp only [createClaimMerkleTransaction, hnone]
  · intro index hidx
    obtain ⟨hlt, hpred, hmin⟩ := List.findIdx?_eq_some_iff_getElem.mp hidx
    refine ⟨?_, ?_, ?_⟩
    · rw [List.getD_eq_getElem _ _ hlt]
      simpa using hpred
    · intro j hj
      rw [List.getD_eq_getElem _ _ (Nat.lt_trans hj hlt)]
      simpa using hmin j hj
    · simp only [createClaimMerkleTransaction, hidx]
      exact ⟨_, _, rfl, List.getLast?_concat _, rfl, rfl⟩

/-- Witness for C9: a recipient absent from the list makes the builder fail;
a present one is claimed with its own amount. -/
theorem merkle_claim_requires_recipient_entry_witness :
    createClaimMerkleTransaction pdaW (List.replicate 32 3) entryA.account [entryB]
        (List.replicate 32 4) (List.replicate 32 5) (List.replicate 32 6) true =
      Except.error ("no entry for recipient in amountsByRecipient")
    ∧ ((([entryA] : List Entry).getD 0 default).account = entryA.account ∧
      (∀ j, j < 0 → (([entryA] : List Entry).getD j default).account ≠ entryA.account) ∧
      ∃ ixs ix, createClaimMerkleTransaction pdaW (List.replicate 32 3) entryA.account
          [entryA] (List.replicate 32 4) (List.replicate 32 5) (List.replicate 32 6)
          true = Except.ok ixs ∧
        ixs.getLast? = some ix ∧
        ix.args.getD 0 default = Arg.u64 (([entryA] : List Entry).getD 0 default).amount ∧
        ix.args.getD 1 default = Arg.bytes (u64le 0 ++
          ((balanceTreeProof [entryA] 0).map toBytes32Array).flatten)) :=
  ⟨(merkle_claim_requires_recipient_entry pdaW (List.replicate 32 3) entryA.account
      [entryB] (List.replicate 32 4) (List.replicate 32 5) (List.replicate 32 6)
      true).1 (by decide),
   (merkle_claim_requires_recipient_entry pdaW (List.replicate 32 3) entryA.account
      [entryA] (List.replicate 32 4) (List.replicate 32 5) (List.replicate 32 6)
      true).2 0 (by decide)⟩

/-- C10: `createConfigMerkleTransaction` throws 'Merkle root of amounts by
recipient required' exactly when both `merkleRoot` and `amountsByRecipient`
are omitted; when both are supplied, the root computed from
`amountsByRecipient` takes precedence and the explicit `merkleRoot` is
ignored. -/
theorem merkle_config_root_requirement (f : List Bytes → Bytes → Bytes)
    (rand : Nat → Bytes) (source authority mint : Bytes) (totalAmount : Nat)
    (closeAuthority : Option Bytes) :
    (∀ (merkleRoot : Option Bytes) (amountsByRecipient : Option (List Entry)),
      (createConfigMerkleTransaction f rand source authority totalAmount merkleRoot
          amountsByRecipient closeAuthority mint =
        Except.error ("Merkle root of amounts by recipient required")) ↔
        (merkleRoot = none ∧ amountsByRecipient = none))
    ∧ (∀ (mr : Bytes) (rs : List Entry), ∃ ctx,
        createConfigMerkleTransaction f rand source authority totalAmount (some mr)
          (some rs) closeAuthority mint = Except.ok ctx ∧
        (ctx.transaction.getD 1 default).args =
          [Arg.bytes (rand 32), Arg.bytes (toBytes32Array (balanceTreeRoot rs))]) := by
  constructor
  · intro mr rs
    cases mr <;> cases rs <;> simp [createConfigMerkleTransaction]
  · intro mr rs
    exact ⟨_, rfl, rfl⟩

end AirdropSdk
